import Mathlib

/-!
Verification of the RCraft launcher core (Rust) against its specification.

The Rust sources are shallowly embedded: filesystem contents are passed
explicitly (as predicates or lists of path strings), network effects are
recorded as values, and `PathBuf::join` of a directory with a relative
component is modelled as string concatenation with a "/" separator.
Rust functions keep their source names.
-/

namespace RCraft

/-- Rust `str::contains(pat)` (substring search). -/
def containsSubstr (s pat : String) : Bool :=
  decide (pat.data <:+: s.data)

/-- Rust `PathBuf::join` with a relative right-hand component. -/
def pathJoin (a b : String) : String :=
  a ++ "/" ++ b

/-- Rust `str::split(sep)` on the character list: always at least one
chunk, empty chunks kept. -/
def splitChar (sep : Char) : List Char → List (List Char)
  | [] => [[]]
  | c :: cs =>
    let r := splitChar sep cs
    if c == sep then [] :: r
    else
      match r with
      | [] => [[c]]
      | w :: ws => (c :: w) :: ws

/-- Rust `str::split(sep).collect()`. -/
def rustSplit (s : String) (sep : Char) : List String :=
  (splitChar sep s.data).map String.mk

/-- Rust `str::starts_with(pat)`. -/
def strStartsWith (s pat : String) : Bool :=
  pat.data.isPrefixOf s.data

/-- Rust `str::replace('.', "/")` (single-character pattern). -/
def replaceDotSlash (s : String) : String :=
  String.mk (s.data.map (fun c => if c == '.' then '/' else c))

/-- Rust `u32::from_str`: optional leading plus sign, at least one digit,
all digits, value below 2^32. -/
def parseU32 (s : String) : Option Nat :=
  let t := if s.data.head? == some '+' then s.data.tail else s.data
  if !t.isEmpty && t.all Char.isDigit then
    let n := t.foldl (fun acc c => acc * 10 + (c.toNat - 48)) 0
    if n < 4294967296 then some n else none
  else none

/-- Rust `i32::from_str`: optional sign, digits, value within the i32 range. -/
def parseI32 (s : String) : Option Int :=
  let sign : Int := if s.data.head? == some '-' then -1 else 1
  let t :=
    if s.data.head? == some '-' || s.data.head? == some '+' then s.data.tail
    else s.data
  if !t.isEmpty && t.all Char.isDigit then
    let n : Int := sign * (t.foldl (fun acc c => acc * 10 + (c.toNat - 48)) 0 : Nat)
    if -2147483648 ≤ n ∧ n < 2147483648 then some n else none
  else none

/-! ## Data model (src/models.rs) -/

/-- src/models.rs `OsRule`. -/
structure OsRule where
  name : Option String
deriving DecidableEq, Repr

/-- src/models.rs `Rule`. -/
structure Rule where
  action : String
  os : Option OsRule
deriving DecidableEq, Repr

/-- src/models.rs `LibraryArtifact`. -/
structure LibraryArtifact where
  url : String
  path : String
deriving DecidableEq, Repr

/-- src/models.rs `LibraryDownloads`; the classifier map is an association list. -/
structure LibraryDownloads where
  artifact : Option LibraryArtifact
  classifiers : Option (List (String × LibraryArtifact))
deriving DecidableEq, Repr

/-- src/models.rs `Extract`. -/
structure Extract where
  exclude : List String
deriving DecidableEq, Repr

/-- src/models.rs `Library`; `natives` is an association list OS → classifier. -/
structure Library where
  name : String
  downloads : Option LibraryDownloads
  natives : Option (List (String × String))
  rules : Option (List Rule)
  extract : Option Extract
deriving DecidableEq, Repr

/-- src/models.rs `JavaVersion` is a record holding `majorVersion`; we embed it
as the bare number. src/models.rs `VersionJson` (also the private copy in
src/launcher.rs). -/
structure VersionJson where
  inherits_from : Option String
  java_version : Option Nat
  libraries : List Library
  main_class : Option String
  asset_index : Option String
deriving DecidableEq, Repr

/-! ## Rule evaluator (src/utils.rs, is_library_allowed) -/

/-- The match test inside the loop of src/utils.rs `is_library_allowed`
(lines 57-65): a rule applies when it has no OS constraint, an OS record
without a name, or an OS name equal to the current one. -/
def ruleMatches (rule : Rule) (os_name : String) : Bool :=
  match rule.os with
  | some os =>
    match os.name with
    | some name => name == os_name
    | none => true
  | none => true

/-- src/utils.rs `is_library_allowed` (lines 50-71): no rule list allows the
library; otherwise the rules are folded left to right from a denied verdict,
each matching rule overwriting the verdict with its action. -/
def is_library_allowed (lib : Library) (os_name : String) : Bool :=
  match lib.rules with
  | none => true
  | some rules =>
    rules.foldl
      (fun allowed rule =>
        if ruleMatches rule os_name then rule.action == "allow" else allowed)
      false

/-- Verdict of the last rule in the list that matches the OS, or the start
verdict if none matches; stated from the spec's words for comparison with
the fold in the code. -/
def lastMatchVerdict (rules : List Rule) (os_name : String) (start : Bool) : Bool :=
  match (rules.filter (fun r => ruleMatches r os_name)).getLast? with
  | some r => r.action == "allow"
  | none => start

theorem foldl_rules_eq_lastMatchVerdict (rules : List Rule) (os_name : String)
    (b : Bool) :
    rules.foldl
      (fun allowed rule =>
        if ruleMatches rule os_name then rule.action == "allow" else allowed)
      b = lastMatchVerdict rules os_name b := by
  induction rules generalizing b with
  | nil => rfl
  | cons r rs ih =>
    simp only [List.foldl_cons]
    rw [ih]
    unfold lastMatchVerdict
    rw [List.filter_cons]
    by_cases h : ruleMatches r os_name
    · simp only [h, if_true]
      cases hfil : rs.filter (fun r => ruleMatches r os_name) with
      | nil => simp
      | cons x xs =>
        cases hlast : (x :: xs).getLast? with
        | none => simp at hlast
        | some y => simp [hlast]
    · simp [h]

/-! ## Version-string helpers (src/utils.rs) -/

/-- src/utils.rs `parse_version` (lines 6-13): split on dots, parse the first
three components as i32 with `unwrap_or(0)` (a missing component also gives 0). -/
def parse_version (s : String) : Int × Int × Int :=
  let parts := rustSplit s '.'
  ( (parseI32 (parts.getD 0 "0")).getD 0,
    ((parts.get? 1).map (fun x => (parseI32 x).getD 0)).getD 0,
    ((parts.get? 2).map (fun x => (parseI32 x).getD 0)).getD 0 )

/-- src/utils.rs `is_at_least_1_8` (lines 21-29): for identifiers containing
"fabric", compare the substring after the last dash; accept major > 1 or
major = 1 with minor at least 8. -/
def is_at_least_1_8 (v : String) : Bool :=
  let version_str :=
    if containsSubstr v "fabric" then ((rustSplit v '-').getLast?).getD v
    else v
  let p := parse_version version_str
  p.1 > 1 || (p.1 == 1 && p.2.1 ≥ 8)

/-! ## Launcher configuration (src/config.rs) -/

/-- src/config.rs `LauncherConfig`; src/launcher.rs additionally stores a
`runtimes_dir` under the same root. -/
structure LauncherConfig where
  minecraft_dir : String
  versions_dir : String
  assets_dir : String
  libraries_dir : String
  runtimes_dir : String
deriving DecidableEq, Repr

/-- src/config.rs `LauncherConfig::new`: all directories hang off
`$HOME/.minecraft`. -/
def LauncherConfig.new (home : String) : LauncherConfig :=
  let minecraft_dir := pathJoin home ".minecraft"
  { minecraft_dir := minecraft_dir
    versions_dir := pathJoin minecraft_dir "versions"
    assets_dir := pathJoin minecraft_dir "assets"
    libraries_dir := pathJoin minecraft_dir "libraries"
    runtimes_dir := pathJoin minecraft_dir "runtimes" }

/-! ## Java version heuristic (src/launcher.rs, get_required_java_version)

The same dotted-version heuristic appears twice in the source (lines 71-92
for a missing descriptor file, lines 109-131 for a descriptor without
`javaVersion` and without `inheritsFrom`); both copies are the function
below. -/

/-- The fallback heuristic of src/launcher.rs `get_required_java_version`:
split the identifier on dots and branch on the parsed second component. -/
def javaHeuristic (version : String) : Nat :=
  let parts := rustSplit version '.'
  if parts.length ≥ 2 then
    match parseU32 (parts.getD 1 "") with
    | some minor =>
      if minor ≥ 20 then
        if parts.length ≥ 3 then
          match parseU32 (parts.getD 2 "") with
          | some sub =>
            if minor == 20 && sub ≥ 5 then 21
            else if minor > 20 then 21
            else 17
          | none => 17
        else 17
      else if minor ≥ 18 then 17
      else if minor == 17 then 16
      else 8
    | none => 8
  else 8

/-- src/launcher.rs `get_required_java_version` (lines 63-132) over an
abstract descriptor store (`store id` is the parsed
`versions/<id>/<id>.json` when that file exists): explicit `javaVersion`
wins, then the parent is consulted recursively, then the heuristic runs on
the identifier itself. The Rust recursion is unbounded; `fuel` bounds it
here and is irrelevant whenever it exceeds the chain depth. -/
def get_required_java_version (store : String → Option VersionJson) :
    Nat → String → Except String Nat
  | 0, _ => .error "inheritance recursion limit reached"
  | fuel + 1, version =>
    match store version with
    | none => .ok (javaHeuristic version)
    | some version_json =>
      match version_json.java_version with
      | some v => .ok v
      | none =>
        match version_json.inherits_from with
        | some parent_id => get_required_java_version store fuel parent_id
        | none => .ok (javaHeuristic version)

/-! ## Launch guard (src/launcher.rs, launch_minecraft lines 241-244) -/

/-- The version gate at the top of src/launcher.rs `launch_minecraft`: any
identifier rejected by `is_at_least_1_8` aborts with an error before any
process specification is produced. The remainder of the function is the
abstract continuation `rest`. -/
def launch_minecraft_guard {α : Type} (version : String) (rest : Except String α) :
    Except String α :=
  if !(is_at_least_1_8 version) then .error "Versions below 1.8 are not supported"
  else rest

/-! ## Classpath builder (src/launcher.rs, build_classpath lines 151-239) -/

/-- Library path resolution inside the classpath loop (lines 180-202):
the explicit artifact path under the libraries root if present, else the
derived Maven-layout path, used only when that file exists on disk. -/
def resolve_lib_path (cfg : LauncherConfig) (libExists : String → Bool)
    (lib : Library) : Option String :=
  let fromArtifact : Option String :=
    match lib.downloads with
    | some downloads =>
      match downloads.artifact with
      | some artifact => some (pathJoin cfg.libraries_dir artifact.path)
      | none => none
    | none => none
  match fromArtifact with
  | some p => some p
  | none =>
    let parts := rustSplit lib.name ':'
    if parts.length ≥ 2 then
      let group := replaceDotSlash (parts.getD 0 "")
      let artifact_id := parts.getD 1 ""
      let version := parts.getD 2 ""
      let path := group ++ "/" ++ artifact_id ++ "/" ++ version ++ "/" ++
        artifact_id ++ "-" ++ version ++ ".jar"
      let p := pathJoin cfg.libraries_dir path
      if libExists p then some p else none
    else none

/-- The `group:artifact` dedup key (lines 204-208). -/
def maven_key_of (lib : Library) : Option String :=
  let parts := rustSplit lib.name ':'
  if parts.length ≥ 2 then some ((parts.getD 0 "") ++ ":" ++ (parts.getD 1 ""))
  else none

/-- One iteration of the library loop of `build_classpath` (lines 174-216),
acting on the accumulator (classpath_paths, seen_artifacts). -/
def classpathStep (cfg : LauncherConfig) (libExists : String → Bool)
    (acc : List String × List String) (lib : Library) : List String × List String :=
  if !(is_library_allowed lib "linux") then acc
  else
    match resolve_lib_path cfg libExists lib, maven_key_of lib with
    | some path, some key =>
      if acc.2.contains key then acc
      else (acc.1 ++ [path], acc.2 ++ [key])
    | _, _ => acc

/-- The version-walking loop of `build_classpath` (lines 159-226): process
the current descriptor's libraries, follow `inheritsFrom`, and stop at a
descriptor with no parent, recording the base JAR path; a missing JSON is
fatal for the starting version and ends the walk for an ancestor. -/
def build_classpath_walk (cfg : LauncherConfig) (store : String → Option VersionJson)
    (libExists : String → Bool) (start_version : String) :
    Nat → String → List String × List String →
    Except String (List String × Option String)
  | 0, _, _ => .error "inheritance chain too deep"
  | fuel + 1, version, acc =>
    match store version with
    | none =>
      if version == start_version then
        .error ("Version JSON not found: " ++ version)
      else .ok (acc.1, none)
    | some version_json =>
      let acc := version_json.libraries.foldl (classpathStep cfg libExists) acc
      match version_json.inherits_from with
      | some parent => build_classpath_walk cfg store libExists start_version fuel parent acc
      | none =>
        .ok (acc.1,
          some (pathJoin (pathJoin cfg.versions_dir version) (version ++ ".jar")))

/-- src/launcher.rs `build_classpath` (lines 151-239): walk the chain from
the starting version, append the base game JAR if one was reached, and join
with the ":" delimiter. -/
def build_classpath (cfg : LauncherConfig) (store : String → Option VersionJson)
    (libExists : String → Bool) (fuel : Nat) (start_version : String) :
    Except String String :=
  match build_classpath_walk cfg store libExists start_version fuel start_version ([], []) with
  | .error e => .error e
  | .ok (classpath_paths, vanilla_jar_path) =>
    let all :=
      match vanilla_jar_path with
      | some jar => classpath_paths ++ [jar]
      | none => classpath_paths
    .ok (String.intercalate ":" all)

/-- The (key, path) entry a library contributes to the classpath, if any:
it must be allowed on the current OS, resolve to a local path, and carry a
well-formed coordinate. -/
def libEntry (cfg : LauncherConfig) (libExists : String → Bool)
    (lib : Library) : Option (String × String) :=
  if is_library_allowed lib "linux" then
    match resolve_lib_path cfg libExists lib, maven_key_of lib with
    | some path, some key => some (key, path)
    | _, _ => none
  else none

/-- Entries contributed by a child-to-parent descriptor chain, in traversal
order and source order within each descriptor. -/
def chainLibEntries (cfg : LauncherConfig) (libExists : String → Bool)
    (chain : List (String × VersionJson)) : List (String × String) :=
  chain.flatMap (fun idvj => idvj.2.libraries.filterMap (libEntry cfg libExists))

/-- First-occurrence-wins deduplication by key, stated from the spec's
words: returns the kept paths and the final seen-key list. -/
def firstWinsP : List (String × String) → List String → List String × List String
  | [], seen => ([], seen)
  | (k, p) :: rest, seen =>
    if seen.contains k then firstWinsP rest seen
    else
      let r := firstWinsP rest (seen ++ [k])
      (p :: r.1, r.2)

/-- The inheritance chain of descriptors actually on disk, child to parent,
ending at the base descriptor (the first with no `inheritsFrom`). A cyclic
store admits no such finite chain. -/
inductive ChainOnDisk (store : String → Option VersionJson) :
    String → List (String × VersionJson) → Prop
  | base (id : String) (vj : VersionJson) :
      store id = some vj → vj.inherits_from = none →
      ChainOnDisk store id [(id, vj)]
  | step (id : String) (vj : VersionJson) (parent : String)
      (rest : List (String × VersionJson)) :
      store id = some vj → vj.inherits_from = some parent →
      ChainOnDisk store parent rest →
      ChainOnDisk store id ((id, vj) :: rest)

/-- Identifier of the last (base) descriptor of a chain. -/
def chainLastId (chain : List (String × VersionJson)) : String :=
  ((chain.getLast?).map (fun x => x.1)).getD ""

/-! ## Isolated Java runtime lookup (src/java_manager.rs, find_java) -/

/-- src/java_manager.rs `JavaManager::find_java` (lines 196-213): strict
isolation, only `runtimes/java-<major>/bin/java` is consulted; its absence
is a missing-Java error naming the major version. -/
def JavaManager_find_java (pathExists : String → Bool) (runtimes_dir : String)
    (required_version : Option Nat) : Except String String :=
  match required_version with
  | some ver =>
    let runtime_java :=
      pathJoin (pathJoin (pathJoin runtimes_dir ("java-" ++ toString ver)) "bin") "java"
    if pathExists runtime_java then .ok runtime_java
    else
      .error ("Minecraft requires Java " ++ toString ver ++
        " but it was not found in runtimes. Attempts to download should have occurred before calling this.")
  | none => .error "Could not find Java in runtimes directory"

/-! ## System-wide Java lookup (src/launcher.rs, find_java lines 442-561) -/

/-- The ambient system the launcher's `find_java` probes: environment
variable, `which` lookups (already trimmed; `none` covers failure and empty
output), file existence, canonicalization, the parsed `java -version`
output at a canonical path, and the entries of /usr/lib/jvm. -/
structure JavaEnv where
  java_home : Option String
  which : String → Option String
  pathExists : String → Bool
  canonicalize : String → Option String
  javaVersionAt : String → Option Nat
  jvm_entries : List String

/-- Candidate-to-path resolution at the top of the candidate loop (lines
488-503): a string containing "/" is used as a path, anything else goes
through `which`. -/
def fj_candidate_path (env : JavaEnv) (path_str : String) : Option String :=
  if containsSubstr path_str "/" then some path_str
  else env.which path_str

/-- The candidate loop of src/launcher.rs `find_java` (lines 487-523),
carrying the seen-set and the best mismatching find; returns early with a
path whose version matches the requirement. -/
def fj_loop (env : JavaEnv) (required : Option Nat) :
    List String → List String → Option (String × Nat) →
    Sum String (List String × Option (String × Nat))
  | [], seen, found => .inr (seen, found)
  | path_str :: rest, seen, found =>
    match fj_candidate_path env path_str with
    | none => fj_loop env required rest seen found
    | some path =>
      if env.pathExists path then
        match env.canonicalize path with
        | some path_abs =>
          if seen.contains path_abs then fj_loop env required rest seen found
          else
            match env.javaVersionAt path_abs with
            | some ver =>
              match required with
              | some req =>
                if ver == req then .inl path_abs
                else fj_loop env required rest (seen ++ [path_abs]) (some (path_abs, ver))
              | none => .inl path_abs
            | none => fj_loop env required rest (seen ++ [path_abs]) found
        | none => fj_loop env required rest seen found
      else fj_loop env required rest seen found

/-- The /usr/lib/jvm directory scan (lines 526-549), run only when a
required version is known and the loop found no exact match. -/
def fj_jvm_scan (env : JavaEnv) (req : Nat) :
    List String → List String → Option (String × Nat) →
    Sum String (List String × Option (String × Nat))
  | [], seen, found => .inr (seen, found)
  | entry :: rest, seen, found =>
    let path := pathJoin (pathJoin entry "bin") "java"
    if env.pathExists path then
      match env.canonicalize path with
      | some path_abs =>
        if seen.contains path_abs then fj_jvm_scan env req rest seen found
        else
          match env.javaVersionAt path_abs with
          | some ver =>
            if ver == req then .inl path_abs
            else
              fj_jvm_scan env req rest (seen ++ [path_abs])
                (if found.isNone then some (path_abs, ver) else found)
          | none => fj_jvm_scan env req rest (seen ++ [path_abs]) found
      | none => fj_jvm_scan env req rest seen found
    else fj_jvm_scan env req rest seen found

/-- src/launcher.rs `MinecraftLauncher::find_java` (lines 442-561): builds a
candidate list of command names, fixed system paths, JAVA_HOME and the
managed runtime path, probes them in order, then scans /usr/lib/jvm. The
Debug formatting of the found path in the error message is rendered with
surrounding quotes. -/
def launcher_find_java (cfg : LauncherConfig) (env : JavaEnv)
    (required_version : Option Nat) : Except String String :=
  let candidates : List String :=
    ["java", "/usr/bin/java", "/usr/local/bin/java", "/opt/java/bin/java"]
  let candidates :=
    match required_version with
    | some ver =>
      let c := ("java" ++ toString ver) :: ("java-" ++ toString ver) :: candidates
      let c := c ++
        ["/usr/lib/jvm/java-" ++ toString ver ++ "-openjdk-amd64/bin/java",
         "/usr/lib/jvm/java-" ++ toString ver ++ "-openjdk/bin/java"]
      if ver == 8 then
        c ++ ["/usr/lib/jvm/java-1.8.0-openjdk-amd64/bin/java",
              "/usr/lib/jvm/java-1.8.0-openjdk/bin/java"]
      else c
    | none =>
      ("java8" :: candidates) ++
        ["/usr/lib/jvm/java-8-openjdk-amd64/bin/java",
         "/usr/lib/jvm/java-8-openjdk-i386/bin/java"]
  let candidates :=
    match env.java_home with
    | some java_home => pathJoin (pathJoin java_home "bin") "java" :: candidates
    | none => candidates
  let runtime_java :=
    pathJoin (pathJoin (pathJoin cfg.runtimes_dir
      ("java-" ++ toString (required_version.getD 8))) "bin") "java"
  let candidates :=
    if env.pathExists runtime_java then runtime_java :: candidates else candidates
  match fj_loop env required_version candidates [] none with
  | .inl path => .ok path
  | .inr (seen, found) =>
    match required_version with
    | some req =>
      match fj_jvm_scan env req env.jvm_entries seen found with
      | .inl path => .ok path
      | .inr (_, found2) =>
        match found2 with
        | some (p, fv) =>
          .error ("Minecraft requires Java " ++ toString req ++ " (found Java " ++
            toString fv ++ " at \x22" ++ p ++ "\x22). Please install Java " ++
            toString req ++ ".")
        | none =>
          .error ("Minecraft requires Java " ++ toString req ++
            " but it was not found on your system. Please install Java " ++
            toString req ++ ".")
    | none => .error "Could not find installed Java"

/-! ## Runtime installation (src/java_manager.rs, download_and_install_java)

The filesystem is a list of existing path strings; `remove_dir_all`,
`create_dir_all` (of a leaf directory), archive extraction and `rename`
act on it. -/

/-- A path is the directory `p` itself or lies strictly under it. -/
def removeDirAll (p : String) (fs : List String) : List String :=
  fs.filter (fun q => !(q == p || strStartsWith q (p ++ "/")))

/-- `fs::rename src dst`: every path at or under `src` moves under `dst`. -/
def renamePath (src dst : String) (fs : List String) : List String :=
  fs.map (fun q =>
    if q == src then dst
    else if strStartsWith q (src ++ "/") then dst ++ String.mk (q.data.drop src.data.length)
    else q)

/-- The install-presence check opening src/java_manager.rs
`download_and_install_java` (lines 42-49): installed iff the target
directory and its bin/java both exist. -/
def javaInstalledCheck (fs : List String) (runtimes_dir : String) (major : Nat) : Bool :=
  let target_dir := pathJoin runtimes_dir ("java-" ++ toString major)
  let java_bin := pathJoin (pathJoin target_dir "bin") "java"
  fs.contains target_dir && fs.contains java_bin

/-- The filesystem after each step of src/java_manager.rs
`download_and_install_java` (lines 107-139), in order: initial state,
temp-dir cleanup, temp-dir creation, archive extraction into the temp dir,
target cleanup, the rename of the extracted root into place, and the final
temp cleanup. `archive` lists the member paths relative to the temp dir,
`extracted_root` the single top-level extracted folder name. -/
def installStates (runtimes_dir : String) (major : Nat) (archive : List String)
    (extracted_root : String) (fs0 : List String) : List (List String) :=
  let temp_dir := pathJoin runtimes_dir ("temp_" ++ toString major)
  let target_dir := pathJoin runtimes_dir ("java-" ++ toString major)
  let fs1 := removeDirAll temp_dir fs0
  let fs2 := fs1 ++ [temp_dir]
  let fs3 := fs2 ++ archive.map (fun n => pathJoin temp_dir n)
  let fs4 := removeDirAll target_dir fs3
  let fs5 := renamePath (pathJoin temp_dir extracted_root) target_dir fs4
  let fs6 := removeDirAll temp_dir fs5
  [fs0, fs1, fs2, fs3, fs4, fs5, fs6]

/-! ## Asset provisioning (src/main.rs, download_version lines 395-422) -/

/-- The content-addressed location of an asset object: a two-character hash
prefix directory and the full hash (Rust slices the first two bytes of the
hash; hashes of length below two would panic there and are out of scope). -/
def objectPath (assets_dir : String) (hash : String) : String :=
  pathJoin (pathJoin (pathJoin assets_dir "objects") (String.mk (hash.data.take 2))) hash

/-- The asset-object loop of src/main.rs `download_version` (lines 408-421)
over the `(logical name, hash)` pairs of the parsed index, in iteration
order: an object is fetched exactly when its content-addressed path does
not exist, and the written file makes the path exist for later iterations.
Returns the list of fetched hashes (network requests) and the final
filesystem. -/
def provisionAssets (assets_dir : String) (objects : List (String × String))
    (fs : List String) : List String × List String :=
  objects.foldl
    (fun acc obj =>
      let object_path := objectPath assets_dir obj.2
      if acc.2.contains object_path then acc
      else (acc.1 ++ [obj.2], acc.2 ++ [object_path]))
    ([], fs)

/-! ## Native archive extraction (src/library_manager.rs, lines 157-179) -/

/-- Rust `Path::file_name` composed with `to_str` for UTF-8 path strings:
the last component, ignoring empty and "." segments, and none when the
path ends in "..", is empty or is a root. -/
def rustFileName (name : String) : Option String :=
  let comps := (splitChar '/' name.data).filter (fun c => !(c.isEmpty || c == ['.']))
  match comps.getLast? with
  | some c => if c == ['.', '.'] then none else some (String.mk c)
  | none => none

/-- The per-member body of the extraction loop in src/library_manager.rs
`check_and_extract_natives` (lines 160-176): skip members matching an
exclude prefix and directory entries, and write the rest to the natives
directory under `file_name`, falling back to the full member path when
`file_name` is undefined. Returns the write target, if any. -/
def nativeEntryAction (exclude : List String) (natives_dir : String)
    (name : String) : Option String :=
  let excluded := exclude.any (fun ex => strStartsWith name ex)
  if excluded || name.data.getLast? == some '/' then none
  else
    let filename := (rustFileName name).getD name
    some (pathJoin natives_dir filename)

/-- The whole extraction loop: write targets for all archive members, in
archive order. -/
def extractNatives (exclude : List String) (natives_dir : String)
    (entries : List String) : List String :=
  entries.filterMap (nativeEntryAction exclude natives_dir)

/-! ## Java-download consent flow (src/ui/mod.rs)

The GUI component state and the message handlers relevant to the
missing-Java flow (lines 544-552, 620-636, 652-687) are embedded as a
small transition system; the launch pipeline entry `prepare_and_launch`
itself is not among the provided sources and its Java stage is modelled
from the spec. -/

/-- The error taxonomy of spec §7, restricted to what the flow needs. The
source signals `JavaMissing` as an error string "Java Runtime <major> is
missing..." that src/ui/mod.rs lines 620-633 parse back into the major
version; the embedding carries the major in the typed error directly. -/
inductive LaunchError where
  | javaMissing (major : Nat)
  | other (msg : String)
deriving DecidableEq, Repr

/-- Modelled from the spec: `prepare_and_launch` (called at src/ui/mod.rs
line 577) is not among the provided sources. Per spec §4.8 and §7 its Java
stage consults only the isolated runtimes (find_java), surfaces
`JavaMissing` as a distinct error instead of downloading, and succeeds when
the required major is installed. `installed` abstracts the set of majors
with a local runtime. -/
def prepare_and_launch_java_stage (installed : List Nat) (required : Nat) :
    Except LaunchError Unit :=
  if installed.contains required then .ok () else .error (.javaMissing required)

/-- src/launcher.rs `prepare_java` (lines 134-149): use a local runtime for
the required major when one is found, otherwise download and install one
immediately. Returns the updated installed set and download log. -/
def prepare_java (installed downloads_started : List Nat) (required : Nat) :
    List Nat × List Nat :=
  if installed.contains required then (installed, downloads_started)
  else (installed ++ [required], downloads_started ++ [required])

/-- The GUI messages of the missing-Java flow (src/ui/msg.rs ∕ ui/mod.rs). -/
inductive AppMsg where
  | LaunchProfile (name : String)
  | ShowJavaDialog (ver : Nat)
  | JavaDownloadConfirmed
  | JavaDownloadCancelled
  | InstallJavaAndLaunch
  | GameStarted
  | ErrorMsg (msg : String)
deriving DecidableEq, Repr

/-- The GUI component state restricted to the missing-Java flow, plus the
record of begun runtime downloads. -/
structure UiState where
  java_dialog_request : Option Nat
  pending_launch_profile : Option String
  installed : List Nat
  downloads_started : List Nat
deriving DecidableEq, Repr

/-- The message handlers of src/ui/mod.rs `update` for the missing-Java
flow: `LaunchProfile` (lines 544-552 and the error branch 620-636) records
the pending profile and runs the launch pipeline, whose missing-Java error
is turned into `ShowJavaDialog`; `ShowJavaDialog` (652-654) records the
dialog request; `JavaDownloadConfirmed` (655-658) clears it and triggers
`InstallJavaAndLaunch`; `JavaDownloadCancelled` (659-663) clears the
request and the pending profile; `InstallJavaAndLaunch` (664-687) runs
`prepare_java` for the pending profile and relaunches. `requiredOf` gives
each profile's required Java major, `profileExists` membership in the
profile table. Returns the new state and the emitted messages. -/
def uiUpdate (requiredOf : String → Nat) (profileExists : String → Bool)
    (s : UiState) (msg : AppMsg) : UiState × List AppMsg :=
  match msg with
  | .LaunchProfile name =>
    if profileExists name then
      let s := { s with pending_launch_profile := some name }
      match prepare_and_launch_java_stage s.installed (requiredOf name) with
      | .ok _ => (s, [.GameStarted])
      | .error (.javaMissing v) => (s, [.ShowJavaDialog v])
      | .error (.other e) => (s, [.ErrorMsg ("Launch Failed: " ++ e)])
    else (s, [])
  | .ShowJavaDialog ver => ({ s with java_dialog_request := some ver }, [])
  | .JavaDownloadConfirmed =>
    ({ s with java_dialog_request := none }, [.InstallJavaAndLaunch])
  | .JavaDownloadCancelled =>
    ({ s with java_dialog_request := none, pending_launch_profile := none }, [])
  | .InstallJavaAndLaunch =>
    match s.pending_launch_profile with
    | some name =>
      if profileExists name then
        let r := prepare_java s.installed s.downloads_started (requiredOf name)
        ({ s with installed := r.1, downloads_started := r.2 }, [.LaunchProfile name])
      else (s, [])
    | none => (s, [])
  | .GameStarted => (s, [])
  | .ErrorMsg _ => (s, [])

/-- Drive the component: process the queue front message, prepend what it
emitted, recurse; `fuel` bounds the run. -/
def uiRun (requiredOf : String → Nat) (profileExists : String → Bool) :
    Nat → UiState → List AppMsg → UiState
  | 0, s, _ => s
  | _ + 1, s, [] => s
  | fuel + 1, s, msg :: queue =>
    let r := uiUpdate requiredOf profileExists s msg
    uiRun requiredOf profileExists fuel r.1 (r.2 ++ queue)

/-- The messages the environment (widgets) can inject in this flow: launch
requests and the two dialog buttons. -/
def isUserMsg : AppMsg → Bool
  | .LaunchProfile _ => true
  | .JavaDownloadConfirmed => true
  | .JavaDownloadCancelled => true
  | _ => false

/-! ## Claim theorems -/

/-- A library with no rules, used as a witness input. -/
def plainLib : Library :=
  { name := "org.example:plain:1.0", downloads := none, natives := none,
    rules := none, extract := none }

/-- A library carrying an unconditional deny rule followed by an
allow-on-linux rule (the manifests spell the deny action "disallow";
the evaluator treats any action other than "allow" as a denial). -/
def denyThenAllowLib : Library :=
  { name := "org.example:native:1.0", downloads := none, natives := none,
    rules := some
      [{ action := "disallow", os := none },
       { action := "allow", os := some { name := some "linux" } }],
    extract := none }

/-- C2: a library with no rule list is allowed; otherwise the ordered rules
are folded left to right, each rule whose OS constraint matches the current
OS (or has none) overwriting the running verdict, and the verdict after the
last rule — equivalently, the verdict of the last matching rule — is
returned; in particular the list [deny(no OS), allow(current OS)] evaluates
to allowed on the current OS (last-match-wins, not first-match). -/
theorem c2_rule_evaluator_last_match_wins :
    (∀ (lib : Library) (os_name : String), lib.rules = none →
      is_library_allowed lib os_name = true) ∧
    (∀ (lib : Library) (os_name : String) (rs : List Rule), lib.rules = some rs →
      is_library_allowed lib os_name = lastMatchVerdict rs os_name false) ∧
    is_library_allowed denyThenAllowLib "linux" = true := by
  refine ⟨?_, ?_, ?_⟩
  · intro lib os_name h
    simp [is_library_allowed, h]
  · intro lib os_name rs h
    simp [is_library_allowed, h, foldl_rules_eq_lastMatchVerdict]
  · rfl

/-- Witness for C2 at concrete inputs: a rule-free library is allowed, and
the deny-then-allow library's verdict agrees with the last matching rule. -/
theorem c2_witness :
    is_library_allowed plainLib "linux" = true ∧
    is_library_allowed denyThenAllowLib "linux" =
      lastMatchVerdict
        [{ action := "disallow", os := none },
         { action := "allow", os := some { name := some "linux" } }] "linux" false :=
  ⟨c2_rule_evaluator_last_match_wins.1 plainLib "linux" rfl,
   c2_rule_evaluator_last_match_wins.2.1 denyThenAllowLib "linux" _ rfl⟩

/-- C9: a library whose rule list is present but contains no rule matching
the current OS (every rule names some other OS) is denied: the running
verdict starts as denied as soon as any rules are present, and no rule
overwrites it. -/
theorem c9_unmatched_rules_deny :
    ∀ (lib : Library) (os_name : String) (rs : List Rule),
      lib.rules = some rs →
      (∀ r ∈ rs, ∃ o n, r.os = some o ∧ o.name = some n ∧ n ≠ os_name) →
      is_library_allowed lib os_name = false := by
  intro lib os_name rs h hall
  have hfil : rs.filter (fun r => ruleMatches r os_name) = [] := by
    rw [List.filter_eq_nil_iff]
    intro r hr
    obtain ⟨o, n, ho, hn, hne⟩ := hall r hr
    simp [ruleMatches, ho, hn, hne]
  simp [is_library_allowed, h, foldl_rules_eq_lastMatchVerdict, lastMatchVerdict, hfil]

/-- A library allowed only on two foreign operating systems, used as a
witness input for C9. -/
def foreignOsLib : Library :=
  { name := "org.example:foreign:1.0", downloads := none, natives := none,
    rules := some
      [{ action := "allow", os := some { name := some "windows" } },
       { action := "allow", os := some { name := some "osx" } }],
    extract := none }

/-- Witness for C9: the windows/osx-only library is denied on linux even
though its list contains no deny rule. -/
theorem c9_witness : is_library_allowed foreignOsLib "linux" = false := by
  refine c9_unmatched_rules_deny foreignOsLib "linux" _ rfl ?_
  intro r hr
  simp only [List.mem_cons, List.not_mem_nil, or_false] at hr
  rcases hr with h | h
  · exact ⟨{ name := some "windows" }, "windows", by rw [h], rfl, by decide⟩
  · exact ⟨{ name := some "osx" }, "osx", by rw [h], rfl, by decide⟩

/-- C3 counterexample: the claim says the identifier is first reduced to
the substring after the last dash, so that the heuristic would see
"1.19.4" and return 17; the code feeds the identifier to the heuristic
unchanged (its second dot-separated component "14" parses as minor 14) and
returns 8. -/
theorem c3_counterexample :
    get_required_java_version (fun _ => none) 1 "fabric-loader-0.14.21-1.19.4" =
      .ok 8 ∧
    javaHeuristic "fabric-loader-0.14.21-1.19.4" = 8 ∧
    javaHeuristic "1.19.4" = 17 ∧ (8 : Nat) ≠ 17 := by
  refine ⟨rfl, rfl, rfl, by decide⟩

/-- C3 amended: when no explicit javaVersion field is available (no
descriptor in the store, or a descriptor without javaVersion and without
inheritsFrom), get_required_java_version applies the dotted-version
heuristic to the identifier unchanged — no loader prefix is stripped —
returning 8 for "1.7.10", 16 for "1.17", 17 for "1.18.2", 21 for "1.20.5",
and 8 for "fabric-loader-0.14.21-1.19.4". -/
theorem c3_java_heuristic_amended :
    (∀ (store : String → Option VersionJson) (fuel : Nat) (id : String),
      store id = none → 0 < fuel →
      get_required_java_version store fuel id = .ok (javaHeuristic id)) ∧
    (∀ (store : String → Option VersionJson) (fuel : Nat) (id : String)
      (vj : VersionJson),
      store id = some vj → vj.java_version = none → vj.inherits_from = none →
      0 < fuel →
      get_required_java_version store fuel id = .ok (javaHeuristic id)) ∧
    javaHeuristic "1.7.10" = 8 ∧ javaHeuristic "1.17" = 16 ∧
    javaHeuristic "1.18.2" = 17 ∧ javaHeuristic "1.20.5" = 21 ∧
    javaHeuristic "fabric-loader-0.14.21-1.19.4" = 8 := by
  refine ⟨?_, ?_, rfl, rfl, rfl, rfl, rfl⟩
  · intro store fuel id h hf
    cases fuel with
    | zero => exact absurd hf (by decide)
    | succ f => simp [get_required_java_version, h]
  · intro store fuel id vj h hjv hif hf
    cases fuel with
    | zero => exact absurd hf (by decide)
    | succ f => simp [get_required_java_version, h, hjv, hif]

/-- Witness for C3 (amended): with an empty store and fuel 1 the four
heuristic values and the unstripped fabric identifier are produced. -/
theorem c3_witness :
    get_required_java_version (fun _ => none) 1 "1.7.10" = .ok 8 ∧
    get_required_java_version (fun _ => none) 1 "1.17" = .ok 16 ∧
    get_required_java_version (fun _ => none) 1 "1.18.2" = .ok 17 ∧
    get_required_java_version (fun _ => none) 1 "1.20.5" = .ok 21 ∧
    get_required_java_version
      (fun id => if id = "nojv" then
        some { inherits_from := none, java_version := none, libraries := [],
               main_class := none, asset_index := none }
       else none) 1 "nojv" = .ok (javaHeuristic "nojv") := by
  refine ⟨?_, ?_, ?_, ?_, ?_⟩
  · have h := c3_java_heuristic_amended.1 (fun _ => none) 1 "1.7.10" rfl (by decide)
    simpa using h
  · have h := c3_java_heuristic_amended.1 (fun _ => none) 1 "1.17" rfl (by decide)
    simpa using h
  · have h := c3_java_heuristic_amended.1 (fun _ => none) 1 "1.18.2" rfl (by decide)
    simpa using h
  · have h := c3_java_heuristic_amended.1 (fun _ => none) 1 "1.20.5" rfl (by decide)
    simpa using h
  · exact c3_java_heuristic_amended.2.1 _ 1 "nojv"
      { inherits_from := none, java_version := none, libraries := [],
        main_class := none, asset_index := none } (by simp) rfl rfl (by decide)

/-- The bare 1.8 comparison on an identifier, as the claim describes it. -/
def versionAtLeast18 (s : String) : Bool :=
  let p := parse_version s
  p.1 > 1 || (p.1 == 1 && p.2.1 ≥ 8)

/-- C10: launch_minecraft refuses every version identifier failing the 1.8
gate with the error "Versions below 1.8 are not supported" and produces no
process specification (the continuation is never reached, whatever it is);
identifiers containing "fabric" are compared via the substring after the
last dash, so fabric-loader identifiers of games at or above 1.8 pass. -/
theorem c10_launch_guard :
    (∀ (α : Type) (rest : Except String α) (v : String),
      is_at_least_1_8 v = false →
      launch_minecraft_guard v rest = .error "Versions below 1.8 are not supported") ∧
    (∀ (α : Type) (rest : Except String α) (v : String),
      is_at_least_1_8 v = true → launch_minecraft_guard v rest = rest) ∧
    (∀ v : String, containsSubstr v "fabric" = true →
      is_at_least_1_8 v = versionAtLeast18 (((rustSplit v '-').getLast?).getD v)) ∧
    is_at_least_1_8 "1.7.10" = false ∧
    is_at_least_1_8 "fabric-loader-0.14.21-1.19.4" = true ∧
    is_at_least_1_8 "fabric-loader-0.14.21-1.7.10" = false := by
  refine ⟨?_, ?_, ?_, rfl, rfl, rfl⟩
  · intro α rest v h
    simp [launch_minecraft_guard, h]
  · intro α rest v h
    simp [launch_minecraft_guard, h]
  · intro v h
    simp [is_at_least_1_8, versionAtLeast18, h]

/-- Witness for C10: the guard rejects "1.7.10" outright and lets the
fabric identifier of a 1.8+ game through to the continuation. -/
theorem c10_witness :
    launch_minecraft_guard "1.7.10" (.ok 0) =
      (.error "Versions below 1.8 are not supported" : Except String Nat) ∧
    launch_minecraft_guard "fabric-loader-0.14.21-1.19.4" (.ok 0) =
      (.ok 0 : Except String Nat) :=
  ⟨c10_launch_guard.1 Nat (.ok 0) "1.7.10" rfl,
   c10_launch_guard.2.1 Nat (.ok 0) "fabric-loader-0.14.21-1.19.4" rfl⟩

/-- Recursive restatement of the asset-object loop: the list of hashes
fetched, threading the filesystem. -/
def provisionGo (assets_dir : String) :
    List (String × String) → List String → List String
  | [], _ => []
  | obj :: rest, fs =>
    let p := objectPath assets_dir obj.2
    if fs.contains p then provisionGo assets_dir rest fs
    else obj.2 :: provisionGo assets_dir rest (fs ++ [p])

theorem provisionAssets_eq_go (assets_dir : String) :
    ∀ (objects : List (String × String)) (dl fs : List String),
      objects.foldl
        (fun acc obj =>
          let object_path := objectPath assets_dir obj.2
          if acc.2.contains object_path then acc
          else (acc.1 ++ [obj.2], acc.2 ++ [object_path]))
        (dl, fs) =
      (dl ++ provisionGo assets_dir objects fs,
       fs ++ (provisionGo assets_dir objects fs).map (objectPath assets_dir)) := by
  intro objects
  induction objects with
  | nil => intro dl fs; simp [provisionGo]
  | cons obj rest ih =>
    intro dl fs
    simp only [List.foldl_cons, provisionGo]
    by_cases h : objectPath assets_dir obj.2 ∈ fs
    · have ht : fs.contains (objectPath assets_dir obj.2) = true := by simpa using h
      simp only [ht, eq_self_iff_true, if_true]
      exact ih dl fs
    · have hf : fs.contains (objectPath assets_dir obj.2) = false := by simpa using h
      simp only [hf, Bool.false_eq_true, if_false]
      rw [ih]
      simp [List.append_assoc]

theorem provisionGo_not_mem (assets_dir : String) :
    ∀ (objects : List (String × String)) (fs : List String) (h : String),
      objectPath assets_dir h ∈ fs → h ∉ provisionGo assets_dir objects fs := by
  intro objects
  induction objects with
  | nil => intro fs h _; simp [provisionGo]
  | cons obj rest ih =>
    intro fs h hmem
    by_cases hc : objectPath assets_dir obj.2 ∈ fs
    · have ht : fs.contains (objectPath assets_dir obj.2) = true := by simpa using hc
      simp only [provisionGo, ht, eq_self_iff_true, if_true]
      exact ih fs h hmem
    · have hf : fs.contains (objectPath assets_dir obj.2) = false := by simpa using hc
      simp only [provisionGo, hf, Bool.false_eq_true, if_false, List.mem_cons, not_or]
      constructor
      · intro he
        rw [he] at hmem
        exact hc hmem
      · exact ih (fs ++ [objectPath assets_dir obj.2]) h (List.mem_append_left _ hmem)

theorem provisionGo_count_le_one (assets_dir : String) :
    ∀ (objects : List (String × String)) (fs : List String) (h : String),
      (provisionGo assets_dir objects fs).count h ≤ 1 := by
  intro objects
  induction objects with
  | nil => intro fs h; simp [provisionGo]
  | cons obj rest ih =>
    intro fs h
    by_cases hc : objectPath assets_dir obj.2 ∈ fs
    · have ht : fs.contains (objectPath assets_dir obj.2) = true := by simpa using hc
      simp only [provisionGo, ht, eq_self_iff_true, if_true]
      exact ih fs h
    · have hf : fs.contains (objectPath assets_dir obj.2) = false := by simpa using hc
      simp only [provisionGo, hf, Bool.false_eq_true, if_false, List.count_cons]
      by_cases he : h = obj.2
      · have hnot : obj.2 ∉ provisionGo assets_dir rest
            (fs ++ [objectPath assets_dir obj.2]) :=
          provisionGo_not_mem assets_dir rest _ obj.2
            (List.mem_append_right _ (List.mem_singleton.mpr rfl))
        rw [he, List.count_eq_zero.mpr hnot]
        simp
      · have hne : ¬(obj.2 = h) := fun hh => he hh.symm
        simp only [List.count_cons, beq_iff_eq, hne, if_false, Nat.add_zero]
        exact ih (fs ++ [objectPath assets_dir obj.2]) h

theorem provisionGo_mem (assets_dir : String) :
    ∀ (objects : List (String × String)) (fs : List String) (h : String),
      h ∈ provisionGo assets_dir objects fs →
      objectPath assets_dir h ∉ fs ∧ h ∈ objects.map (fun o => o.2) := by
  intro objects
  induction objects with
  | nil => intro fs h hmem; simp [provisionGo] at hmem
  | cons obj rest ih =>
    intro fs h hmem
    by_cases hc : objectPath assets_dir obj.2 ∈ fs
    · have ht : fs.contains (objectPath assets_dir obj.2) = true := by simpa using hc
      simp only [provisionGo, ht, eq_self_iff_true, if_true] at hmem
      obtain ⟨h1, h2⟩ := ih fs h hmem
      exact ⟨h1, by simp [h2]⟩
    · have hf : fs.contains (objectPath assets_dir obj.2) = false := by simpa using hc
      simp only [provisionGo, hf, Bool.false_eq_true, if_false, List.mem_cons] at hmem
      rcases hmem with he | hmem
      · subst he
        exact ⟨hc, by simp⟩
      · obtain ⟨h1, h2⟩ := ih (fs ++ [objectPath assets_dir obj.2]) h hmem
        refine ⟨fun hin => h1 (List.mem_append_left _ hin), by simp [h2]⟩

theorem provisionGo_nil_of_present (assets_dir : String) :
    ∀ (objects : List (String × String)) (fs : List String),
      (∀ o ∈ objects, objectPath assets_dir o.2 ∈ fs) →
      provisionGo assets_dir objects fs = [] := by
  intro objects
  induction objects with
  | nil => intro fs _; rfl
  | cons obj rest ih =>
    intro fs hall
    have hc : objectPath assets_dir obj.2 ∈ fs := hall obj (List.mem_cons_self _ _)
    have ht : fs.contains (objectPath assets_dir obj.2) = true := by simpa using hc
    simp only [provisionGo, ht, eq_self_iff_true, if_true]
    exact ih fs (fun o ho => hall o (List.mem_cons_of_mem _ ho))

/-- C7: an asset object is downloaded exactly when its content-addressed
path `assets/objects/<2-hex>/<hash>` is absent at its turn, so each hash is
fetched at most once however many logical names reference it, only
initially-absent referenced hashes are fetched at all, and a run against a
fully-populated store performs zero asset-object network requests. -/
theorem c7_asset_provisioning_idempotent :
    ∀ (assets_dir : String) (objects : List (String × String)) (fs : List String),
      (∀ h : String, ((provisionAssets assets_dir objects fs).1.count h) ≤ 1) ∧
      (∀ h : String, h ∈ (provisionAssets assets_dir objects fs).1 →
        objectPath assets_dir h ∉ fs ∧ h ∈ objects.map (fun o => o.2)) ∧
      ((∀ o ∈ objects, objectPath assets_dir o.2 ∈ fs) →
        (provisionAssets assets_dir objects fs).1 = []) := by
  intro assets_dir objects fs
  have heq : provisionAssets assets_dir objects fs =
      ([] ++ provisionGo assets_dir objects fs,
       fs ++ (provisionGo assets_dir objects fs).map (objectPath assets_dir)) :=
    provisionAssets_eq_go assets_dir objects [] fs
  refine ⟨?_, ?_, ?_⟩
  · intro h
    rw [heq]
    simpa using provisionGo_count_le_one assets_dir objects fs h
  · intro h hmem
    rw [heq] at hmem
    exact provisionGo_mem assets_dir objects fs h (by simpa using hmem)
  · intro hall
    rw [heq]
    simp [provisionGo_nil_of_present assets_dir objects fs hall]

/-- Witness for C7: two logical names sharing one hash yield at most one
fetch of it, and a second run against the populated store fetches nothing. -/
theorem c7_witness :
    ((provisionAssets "assets"
      [("minecraft/sounds/a.ogg", "aabbcc"), ("minecraft/sounds/b.ogg", "aabbcc")]
      []).1.count "aabbcc") ≤ 1 ∧
    (provisionAssets "assets" [("minecraft/sounds/a.ogg", "aabbcc")]
      [objectPath "assets" "aabbcc"]).1 = [] :=
  ⟨(c7_asset_provisioning_idempotent "assets" _ []).1 "aabbcc",
   (c7_asset_provisioning_idempotent "assets" _ _).2.2 (by decide)⟩

theorem splitChar_not_mem (sep : Char) :
    ∀ (l : List Char) (w : List Char), w ∈ splitChar sep l → sep ∉ w := by
  intro l
  induction l with
  | nil =>
    intro w hw
    simp [splitChar] at hw
    simp [hw]
  | cons c cs ih =>
    intro w hw
    simp only [splitChar] at hw
    by_cases hc : c == sep
    · simp only [hc, if_true] at hw
      rcases List.mem_cons.mp hw with h | h
      · simp [h]
      · exact ih w h
    · have hcs : c ≠ sep := by simpa using hc
      simp only [hc, Bool.false_eq_true, if_false] at hw
      cases hr : splitChar sep cs with
      | nil =>
        simp only [hr] at hw
        rcases List.mem_cons.mp hw with h | h
        · subst h
          intro hmem
          rcases List.mem_cons.mp hmem with h0 | h0
          · exact hcs h0.symm
          · simp at h0
        · simp at h
      | cons w0 ws =>
        rw [hr] at hw
        rcases List.mem_cons.mp hw with h | h
        · subst h
          intro hmem
          rcases List.mem_cons.mp hmem with h0 | h0
          · exact hcs h0.symm
          · exact ih w0 (by rw [hr]; exact List.mem_cons_self _ _) h0
        · exact ih w (by rw [hr]; exact List.mem_cons_of_mem _ h)

theorem rustFileName_no_slash (name : String) (f : String)
    (h : rustFileName name = some f) : '/' ∉ f.data := by
  simp only [rustFileName] at h
  cases hl : ((splitChar '/' name.data).filter
      (fun c => !(c.isEmpty || c == ['.']))).getLast? with
  | none => rw [hl] at h; simp at h
  | some c =>
    rw [hl] at h
    simp only at h
    by_cases hdd : c == ['.', '.']
    · simp [hdd] at h
    · simp only [hdd, Bool.false_eq_true, if_false, Option.some.injEq] at h
      have hmem : c ∈ splitChar '/' name.data :=
        List.mem_of_mem_filter (List.mem_of_mem_getLast? hl)
      have hns := splitChar_not_mem '/' name.data c hmem
      rw [← h]
      simpa using hns

/-- C8 counterexample: the archive member "subdir/.." is neither excluded
nor a directory entry, Rust `Path::file_name` is undefined for it (the path
terminates in ".."), so the code falls back to the full relative path and
the write target "natives/subdir/.." keeps the subdirectory — it is not the
natives directory joined with a slash-free file name. -/
theorem c8_counterexample :
    nativeEntryAction [] "natives" "subdir/.." =
      some (pathJoin "natives" "subdir/..") ∧
    rustFileName "subdir/.." = none ∧
    '/' ∈ "subdir/..".data := by
  refine ⟨rfl, rfl, by decide⟩

/-- C8 amended: native extraction skips exactly the members matching an
exclude prefix or ending in "/", and writes each remaining member into the
natives directory under its final file name — which contains no slash —
whenever the member's path has one (Rust `Path::file_name` is defined);
a pathological member terminating in ".." falls back to its full relative
path instead. -/
theorem c8_native_extraction_amended :
    ∀ (exclude : List String) (natives_dir : String) (entries : List String),
      (∀ name : String,
        (exclude.any (fun ex => strStartsWith name ex) ||
          name.data.getLast? == some '/') = true →
        nativeEntryAction exclude natives_dir name = none) ∧
      (∀ name : String,
        (exclude.any (fun ex => strStartsWith name ex) ||
          name.data.getLast? == some '/') = false →
        nativeEntryAction exclude natives_dir name =
          some (pathJoin natives_dir ((rustFileName name).getD name))) ∧
      (∀ (name f : String), rustFileName name = some f → '/' ∉ f.data) ∧
      extractNatives exclude natives_dir entries =
        entries.filterMap (nativeEntryAction exclude natives_dir) := by
  intro exclude natives_dir entries
  refine ⟨?_, ?_, fun name f h => rustFileName_no_slash name f h, rfl⟩
  · intro name h
    simp only [nativeEntryAction, h, if_true]
  · intro name h
    simp only [nativeEntryAction, h, Bool.false_eq_true, if_false]

/-- Witness for C8 (amended): an excluded member and a directory entry are
skipped, a nested member is flattened to its file name, and that file name
is slash-free. -/
theorem c8_witness :
    nativeEntryAction ["META-INF/"] "natives" "META-INF/MANIFEST.MF" = none ∧
    nativeEntryAction ["META-INF/"] "natives" "subdir/" = none ∧
    nativeEntryAction ["META-INF/"] "natives" "subdir/liblwjgl.so" =
      some (pathJoin "natives" "liblwjgl.so") ∧
    '/' ∉ "liblwjgl.so".data := by
  refine ⟨?_, ?_, ?_, ?_⟩
  · exact (c8_native_extraction_amended ["META-INF/"] "natives" []).1
      "META-INF/MANIFEST.MF" (by decide)
  · exact (c8_native_extraction_amended ["META-INF/"] "natives" []).1
      "subdir/" (by decide)
  · have h := (c8_native_extraction_amended ["META-INF/"] "natives" []).2.1
      "subdir/liblwjgl.so" (by decide)
    simpa using h
  · exact (c8_native_extraction_amended ["META-INF/"] "natives" []).2.2.1
      "subdir/liblwjgl.so" "liblwjgl.so" rfl

/-- An ambient system with no JAVA_HOME, no `which` results, no /usr/lib/jvm
entries, and a single system-wide Java 17 at /usr/bin/java; the isolated
runtime root is empty. -/
def sysOnlyEnv : JavaEnv :=
  { java_home := none
    which := fun _ => none
    pathExists := fun p => p == "/usr/bin/java"
    canonicalize := fun p => some p
    javaVersionAt := fun p => if p == "/usr/bin/java" then some 17 else none
    jvm_entries := [] }

/-- C4 counterexample: with no isolated runtime installed,
`MinecraftLauncher::find_java` (the lookup `prepare_java` and
`launch_minecraft` use) resolves the system-wide /usr/bin/java instead of
failing with a missing-Java error — refuting the claim that only
`runtimes/java-<major>/bin/java` is consulted. -/
theorem c4_counterexample :
    launcher_find_java (LauncherConfig.new "/home/user") sysOnlyEnv (some 17) =
      .ok "/usr/bin/java" ∧
    sysOnlyEnv.pathExists
      (pathJoin (pathJoin (pathJoin (LauncherConfig.new "/home/user").runtimes_dir
        ("java-" ++ toString (17 : Nat))) "bin") "java") = false := by
  refine ⟨rfl, rfl⟩

/-- C4 amended: `JavaManager::find_java` consults only the isolated
per-major path `runtimes/java-<major>/bin/java` — its result depends on
nothing else in the filesystem — returning that path when present and a
missing-Java error for that major when absent; `MinecraftLauncher::find_java`
(src/launcher.rs), however, additionally probes PATH via `which`,
JAVA_HOME, fixed system paths and /usr/lib/jvm, and does resolve
system-wide installations. -/
theorem c4_isolated_find_java_amended :
    (∀ (pe pe' : String → Bool) (runtimes_dir : String) (ver : Nat),
      pe (pathJoin (pathJoin (pathJoin runtimes_dir ("java-" ++ toString ver)) "bin") "java") =
        pe' (pathJoin (pathJoin (pathJoin runtimes_dir ("java-" ++ toString ver)) "bin") "java") →
      JavaManager_find_java pe runtimes_dir (some ver) =
        JavaManager_find_java pe' runtimes_dir (some ver)) ∧
    (∀ (pe : String → Bool) (runtimes_dir : String) (ver : Nat),
      pe (pathJoin (pathJoin (pathJoin runtimes_dir ("java-" ++ toString ver)) "bin") "java") = true →
      JavaManager_find_java pe runtimes_dir (some ver) =
        .ok (pathJoin (pathJoin (pathJoin runtimes_dir ("java-" ++ toString ver)) "bin") "java")) ∧
    (∀ (pe : String → Bool) (runtimes_dir : String) (ver : Nat),
      pe (pathJoin (pathJoin (pathJoin runtimes_dir ("java-" ++ toString ver)) "bin") "java") = false →
      JavaManager_find_java pe runtimes_dir (some ver) =
        .error ("Minecraft requires Java " ++ toString ver ++
          " but it was not found in runtimes. Attempts to download should have occurred before calling this.")) := by
  refine ⟨?_, ?_, ?_⟩
  · intro pe pe' runtimes_dir ver h
    simp only [JavaManager_find_java, h]
  · intro pe runtimes_dir ver h
    simp only [JavaManager_find_java, h, if_true]
  · intro pe runtimes_dir ver h
    simp only [JavaManager_find_java, h, Bool.false_eq_true, if_false]

/-- Witness for C4 (amended): over a one-file filesystem holding exactly
the isolated runtime, the lookup succeeds with that path; over an empty
filesystem it reports the missing-Java error for major 17. -/
theorem c4_witness :
    JavaManager_find_java
      (fun p => p == pathJoin (pathJoin (pathJoin "runtimes" "java-17") "bin") "java")
      "runtimes" (some 17) =
      .ok (pathJoin (pathJoin (pathJoin "runtimes" "java-17") "bin") "java") ∧
    JavaManager_find_java (fun _ => false) "runtimes" (some 17) =
      .error ("Minecraft requires Java 17 but it was not found in runtimes. Attempts to download should have occurred before calling this.") := by
  constructor
  · have h := c4_isolated_find_java_amended.2.1
      (fun p => p == pathJoin (pathJoin (pathJoin "runtimes" "java-17") "bin") "java")
      "runtimes" 17 (by decide)
    simpa using h
  · have h := c4_isolated_find_java_amended.2.2 (fun _ => false) "runtimes" 17 rfl
    simpa using h

/-- The isolated runtime executable path `runtimes/java-<major>/bin/java`. -/
def targetJavaBin (runtimes_dir : String) (major : Nat) : String :=
  pathJoin (pathJoin (pathJoin runtimes_dir ("java-" ++ toString major)) "bin") "java"

theorem pathJoin_assoc (a b c : String) :
    pathJoin (pathJoin a b) c = pathJoin a (b ++ "/" ++ c) := by
  simp [pathJoin, String.append_assoc]

theorem pathJoin_ne_of_head_ne (a s t : String)
    (h : s.data.head? ≠ t.data.head?) : pathJoin a s ≠ pathJoin a t := by
  intro he
  apply h
  have hd : (a ++ "/").data ++ s.data = (a ++ "/").data ++ t.data := congrArg String.data he
  rw [List.append_cancel_left hd]

theorem targetJavaBin_ne_temp (runtimes_dir : String) (major : Nat) :
    targetJavaBin runtimes_dir major ≠
      pathJoin runtimes_dir ("temp_" ++ toString major) := by
  have h : targetJavaBin runtimes_dir major =
      pathJoin runtimes_dir
        ((("java-" ++ toString major) ++ "/" ++ "bin") ++ "/" ++ "java") := by
    simp [targetJavaBin, pathJoin_assoc, String.append_assoc]
  rw [h]
  apply pathJoin_ne_of_head_ne
  have h1 : ((("java-" ++ toString major) ++ "/" ++ "bin") ++ "/" ++ "java").data.head? =
      some 'j' := rfl
  have h2 : ("temp_" ++ toString major).data.head? = some 't' := rfl
  rw [h1, h2]
  simp

theorem targetJavaBin_ne_temp_member (runtimes_dir : String) (major : Nat)
    (n : String) :
    targetJavaBin runtimes_dir major ≠
      pathJoin (pathJoin runtimes_dir ("temp_" ++ toString major)) n := by
  have h : targetJavaBin runtimes_dir major =
      pathJoin runtimes_dir
        ((("java-" ++ toString major) ++ "/" ++ "bin") ++ "/" ++ "java") := by
    simp [targetJavaBin, pathJoin_assoc, String.append_assoc]
  rw [h, pathJoin_assoc]
  apply pathJoin_ne_of_head_ne
  have h1 : ((("java-" ++ toString major) ++ "/" ++ "bin") ++ "/" ++ "java").data.head? =
      some 'j' := rfl
  have h2 : (("temp_" ++ toString major) ++ "/" ++ n).data.head? = some 't' := rfl
  rw [h1, h2]
  simp

/-- C6: a runtime is treated as installed exactly when the directory
`runtimes/java-<major>` and its `bin/java` both exist, and the installer
works entirely inside the scratch directory `runtimes/temp_<major>` until
the final rename — so after every step before the rename (initial state,
temp cleanup, temp creation, extraction, target cleanup) the executable
path is still absent and the isolated `find_java` still reports the
missing-Java error, provided it was absent initially. -/
theorem c6_install_atomic_rename :
    ∀ (runtimes_dir : String) (major : Nat) (archive : List String)
      (extracted_root : String) (fs0 : List String),
      (javaInstalledCheck fs0 runtimes_dir major = true ↔
        pathJoin runtimes_dir ("java-" ++ toString major) ∈ fs0 ∧
          targetJavaBin runtimes_dir major ∈ fs0) ∧
      (targetJavaBin runtimes_dir major ∉ fs0 →
        ∀ fs ∈ (installStates runtimes_dir major archive extracted_root fs0).take 5,
          targetJavaBin runtimes_dir major ∉ fs ∧
          JavaManager_find_java (fun p => fs.contains p) runtimes_dir (some major) =
            .error ("Minecraft requires Java " ++ toString major ++
              " but it was not found in runtimes. Attempts to download should have occurred before calling this.")) := by
  intro runtimes_dir major archive extracted_root fs0
  constructor
  · simp [javaInstalledCheck, targetJavaBin]
  · intro h0
    have herr : ∀ fs : List String, targetJavaBin runtimes_dir major ∉ fs →
        JavaManager_find_java (fun p => fs.contains p) runtimes_dir (some major) =
          .error ("Minecraft requires Java " ++ toString major ++
            " but it was not found in runtimes. Attempts to download should have occurred before calling this.") := by
      intro fs hnot
      have hc : fs.contains (targetJavaBin runtimes_dir major) = false := by
        simpa using hnot
      simp only [JavaManager_find_java]
      have hcc : fs.contains (pathJoin (pathJoin (pathJoin runtimes_dir
          ("java-" ++ toString major)) "bin") "java") = false := hc
      simp only [hcc, Bool.false_eq_true, if_false]
    have h1 : targetJavaBin runtimes_dir major ∉
        removeDirAll (pathJoin runtimes_dir ("temp_" ++ toString major)) fs0 :=
      fun hmem => h0 (List.mem_of_mem_filter hmem)
    have h2 : targetJavaBin runtimes_dir major ∉
        removeDirAll (pathJoin runtimes_dir ("temp_" ++ toString major)) fs0 ++
          [pathJoin runtimes_dir ("temp_" ++ toString major)] := by
      intro hmem
      rcases List.mem_append.mp hmem with h | h
      · exact h1 h
      · exact targetJavaBin_ne_temp runtimes_dir major (List.mem_singleton.mp h)
    have h3 : targetJavaBin runtimes_dir major ∉
        (removeDirAll (pathJoin runtimes_dir ("temp_" ++ toString major)) fs0 ++
          [pathJoin runtimes_dir ("temp_" ++ toString major)]) ++
          archive.map (fun n =>
            pathJoin (pathJoin runtimes_dir ("temp_" ++ toString major)) n) := by
      intro hmem
      rcases List.mem_append.mp hmem with h | h
      · exact h2 h
      · obtain ⟨n, _, heq⟩ := List.mem_map.mp h
        exact targetJavaBin_ne_temp_member runtimes_dir major n heq.symm
    have h4 : targetJavaBin runtimes_dir major ∉
        removeDirAll (pathJoin runtimes_dir ("java-" ++ toString major))
          ((removeDirAll (pathJoin runtimes_dir ("temp_" ++ toString major)) fs0 ++
            [pathJoin runtimes_dir ("temp_" ++ toString major)]) ++
            archive.map (fun n =>
              pathJoin (pathJoin runtimes_dir ("temp_" ++ toString major)) n)) :=
      fun hmem => h3 (List.mem_of_mem_filter hmem)
    intro fs hfs
    simp only [installStates, List.take, List.mem_cons, List.not_mem_nil, or_false] at hfs
    rcases hfs with rfl | rfl | rfl | rfl | rfl
    · exact ⟨h0, herr _ h0⟩
    · exact ⟨h1, herr _ h1⟩
    · exact ⟨h2, herr _ h2⟩
    · exact ⟨h3, herr _ h3⟩
    · exact ⟨h4, herr _ h4⟩

/-- Witness for C6: a concrete interrupted install over an initially empty
filesystem — every pre-rename state lacks runtimes/java-17/bin/java and the
isolated lookup still reports the missing-Java error, while the full run
does produce the executable path. -/
theorem c6_witness :
    (∀ fs ∈ (installStates "runtimes" 17 ["jdk/bin/java"] "jdk" []).take 5,
      targetJavaBin "runtimes" 17 ∉ fs ∧
      JavaManager_find_java (fun p => fs.contains p) "runtimes" (some 17) =
        .error ("Minecraft requires Java 17 but it was not found in runtimes. Attempts to download should have occurred before calling this.")) ∧
    targetJavaBin "runtimes" 17 ∈
      ((installStates "runtimes" 17 ["jdk/bin/java"] "jdk" []).getLast?).getD [] := by
  constructor
  · intro fs hfs
    have h := (c6_install_atomic_rename "runtimes" 17 ["jdk/bin/java"] "jdk" []).2
      (by decide) fs hfs
    simpa using h
  · decide

theorem uiUpdate_no_install (requiredOf : String → Nat)
    (profileExists : String → Bool) (s : UiState) (msg : AppMsg)
    (h1 : msg ≠ AppMsg.JavaDownloadConfirmed)
    (h2 : msg ≠ AppMsg.InstallJavaAndLaunch) :
    (uiUpdate requiredOf profileExists s msg).1.downloads_started =
      s.downloads_started ∧
    AppMsg.JavaDownloadConfirmed ∉ (uiUpdate requiredOf profileExists s msg).2 ∧
    AppMsg.InstallJavaAndLaunch ∉ (uiUpdate requiredOf profileExists s msg).2 := by
  cases msg with
  | LaunchProfile name =>
    simp only [uiUpdate]
    by_cases hp : profileExists name
    · simp only [hp, if_true]
      cases hstage : prepare_and_launch_java_stage s.installed (requiredOf name) with
      | ok u => simp
      | error e =>
        cases e with
        | javaMissing v => simp
        | other m => simp
    · simp [hp]
  | ShowJavaDialog ver => simp [uiUpdate]
  | JavaDownloadConfirmed => exact absurd rfl h1
  | JavaDownloadCancelled => simp [uiUpdate]
  | InstallJavaAndLaunch => exact absurd rfl h2
  | GameStarted => simp [uiUpdate]
  | ErrorMsg m => simp [uiUpdate]

theorem uiRun_downloads_invariant (requiredOf : String → Nat)
    (profileExists : String → Bool) :
    ∀ (fuel : Nat) (s : UiState) (queue : List AppMsg),
      AppMsg.JavaDownloadConfirmed ∉ queue →
      AppMsg.InstallJavaAndLaunch ∉ queue →
      (uiRun requiredOf profileExists fuel s queue).downloads_started =
        s.downloads_started := by
  intro fuel
  induction fuel with
  | zero => intro s queue _ _; rfl
  | succ f ih =>
    intro s queue hC hI
    cases queue with
    | nil => rfl
    | cons msg rest =>
      have hmC : msg ≠ AppMsg.JavaDownloadConfirmed :=
        fun h => hC (h ▸ List.mem_cons_self _ _)
      have hmI : msg ≠ AppMsg.InstallJavaAndLaunch :=
        fun h => hI (h ▸ List.mem_cons_self _ _)
      obtain ⟨hd, hc2, hi2⟩ :=
        uiUpdate_no_install requiredOf profileExists s msg hmC hmI
      have hrC : AppMsg.JavaDownloadConfirmed ∉
          (uiUpdate requiredOf profileExists s msg).2 ++ rest := by
        intro h
        rcases List.mem_append.mp h with h | h
        · exact hc2 h
        · exact hC (List.mem_cons_of_mem _ h)
      have hrI : AppMsg.InstallJavaAndLaunch ∉
          (uiUpdate requiredOf profileExists s msg).2 ++ rest := by
        intro h
        rcases List.mem_append.mp h with h | h
        · exact hi2 h
        · exact hI (List.mem_cons_of_mem _ h)
      show (uiRun requiredOf profileExists f
        (uiUpdate requiredOf profileExists s msg).1
        ((uiUpdate requiredOf profileExists s msg).2 ++ rest)).downloads_started =
        s.downloads_started
      rw [ih _ _ hrC hrI, hd]

/-- C5: when the required Java major is not installed locally, launching
surfaces the missing-Java condition as a distinct dialog request instead of
downloading; no run driven only by user messages without a
JavaDownloadConfirmed ever starts a runtime download; and once the user
confirms, the download of the required major begins. -/
theorem c5_java_download_gated_on_consent :
    (∀ (requiredOf : String → Nat) (profileExists : String → Bool)
      (s : UiState) (name : String),
      profileExists name = true → requiredOf name ∉ s.installed →
      uiUpdate requiredOf profileExists s (.LaunchProfile name) =
        ({ s with pending_launch_profile := some name },
         [.ShowJavaDialog (requiredOf name)])) ∧
    (∀ (requiredOf : String → Nat) (profileExists : String → Bool)
      (fuel : Nat) (s : UiState) (msgs : List AppMsg),
      (∀ m ∈ msgs, isUserMsg m = true) →
      AppMsg.JavaDownloadConfirmed ∉ msgs →
      (uiRun requiredOf profileExists fuel s msgs).downloads_started =
        s.downloads_started) ∧
    (∀ (requiredOf : String → Nat) (profileExists : String → Bool)
      (s : UiState) (name : String),
      profileExists name = true → s.pending_launch_profile = some name →
      requiredOf name ∉ s.installed →
      requiredOf name ∈
        (uiRun requiredOf profileExists 3 s
          [.JavaDownloadConfirmed]).downloads_started) := by
  refine ⟨?_, ?_, ?_⟩
  · intro requiredOf profileExists s name hp hreq
    simp [uiUpdate, prepare_and_launch_java_stage, hp, hreq]
  · intro requiredOf profileExists fuel s msgs huser hC
    have hI : AppMsg.InstallJavaAndLaunch ∉ msgs := by
      intro h
      have := huser _ h
      simp [isUserMsg] at this
    exact uiRun_downloads_invariant requiredOf profileExists fuel s msgs hC hI
  · intro requiredOf profileExists s name hp hpend hreq
    simp [uiRun, uiUpdate, prepare_and_launch_java_stage, prepare_java,
      hp, hpend, hreq]

/-- A component state with the Java-17 dialog pending for profile "p" and
no installed runtime. -/
def c5StateDialog : UiState :=
  { java_dialog_request := some 17, pending_launch_profile := some "p",
    installed := [], downloads_started := [] }

/-- The initial component state. -/
def c5StateInit : UiState :=
  { java_dialog_request := none, pending_launch_profile := none,
    installed := [], downloads_started := [] }

/-- Witness for C5: from a state with a pending profile and no installed
runtime, confirming the dialog starts the Java 17 download; launching and
cancelling without confirmation starts none. -/
theorem c5_witness :
    17 ∈ (uiRun (fun _ => 17) (fun _ => true) 3 c5StateDialog
      [.JavaDownloadConfirmed]).downloads_started ∧
    (uiRun (fun _ => 17) (fun _ => true) 5 c5StateInit
      [.LaunchProfile "p", .JavaDownloadCancelled]).downloads_started = [] := by
  constructor
  · exact c5_java_download_gated_on_consent.2.2 (fun _ => 17) (fun _ => true)
      c5StateDialog "p" rfl rfl (by simp [c5StateDialog])
  · have h := c5_java_download_gated_on_consent.2.1 (fun _ => 17) (fun _ => true)
      5 c5StateInit [.LaunchProfile "p", .JavaDownloadCancelled]
      (by decide) (by decide)
    simpa [c5StateInit] using h

theorem classpathStep_eq (cfg : LauncherConfig) (libExists : String → Bool)
    (acc : List String × List String) (lib : Library) :
    classpathStep cfg libExists acc lib =
      match libEntry cfg libExists lib with
      | none => acc
      | some kp =>
        if acc.2.contains kp.1 then acc
        else (acc.1 ++ [kp.2], acc.2 ++ [kp.1]) := by
  by_cases ha : is_library_allowed lib "linux"
  · cases hres : resolve_lib_path cfg libExists lib with
    | none => simp [classpathStep, libEntry, ha, hres]
    | some path =>
      cases hkey : maven_key_of lib with
      | none => simp [classpathStep, libEntry, ha, hres, hkey]
      | some key => simp [classpathStep, libEntry, ha, hres, hkey]
  · simp [classpathStep, libEntry, ha]

theorem foldl_classpathStep (cfg : LauncherConfig) (libExists : String → Bool) :
    ∀ (libs : List Library) (acc : List String × List String),
      libs.foldl (classpathStep cfg libExists) acc =
        (acc.1 ++ (firstWinsP (libs.filterMap (libEntry cfg libExists)) acc.2).1,
         (firstWinsP (libs.filterMap (libEntry cfg libExists)) acc.2).2) := by
  intro libs
  induction libs with
  | nil => intro acc; simp [firstWinsP]
  | cons lib rest ih =>
    intro acc
    rw [List.foldl_cons, classpathStep_eq]
    cases hle : libEntry cfg libExists lib with
    | none => simp [hle, ih]
    | some kp =>
      obtain ⟨k, p⟩ := kp
      by_cases hk : acc.2.contains k
      · have hk2 : k ∈ acc.2 := by simpa using hk
        simp [hle, hk, ih, firstWinsP, hk2]
      · have hk2 : k ∉ acc.2 := by simpa using hk
        simp only [hle, hk, Bool.false_eq_true, if_false, ih, List.filterMap_cons]
        simp [firstWinsP, hk2, List.append_assoc]

theorem firstWinsP_append :
    ∀ (xs ys : List (String × String)) (seen : List String),
      firstWinsP (xs ++ ys) seen =
        ((firstWinsP xs seen).1 ++ (firstWinsP ys (firstWinsP xs seen).2).1,
         (firstWinsP ys (firstWinsP xs seen).2).2) := by
  intro xs
  induction xs with
  | nil => intro ys seen; simp [firstWinsP]
  | cons kp xs ih =>
    intro ys seen
    obtain ⟨k, p⟩ := kp
    by_cases hk : k ∈ seen
    · simp [firstWinsP, hk, ih]
    · simp [firstWinsP, hk, ih]

theorem ChainOnDisk.ne_nil {store : String → Option VersionJson} {id : String}
    {chain : List (String × VersionJson)} (h : ChainOnDisk store id chain) :
    chain ≠ [] := by
  cases h <;> simp

theorem chainLastId_cons (x : String × VersionJson)
    (rest : List (String × VersionJson)) (h : rest ≠ []) :
    chainLastId (x :: rest) = chainLastId rest := by
  cases rest with
  | nil => exact absurd rfl h
  | cons y ys => simp [chainLastId, List.getLast?_cons_cons]

theorem build_classpath_walk_on_chain (cfg : LauncherConfig)
    (store : String → Option VersionJson) (libExists : String → Bool)
    (start_version : String) :
    ∀ (chain : List (String × VersionJson)) (id : String),
      ChainOnDisk store id chain →
      ∀ (fuel : Nat), chain.length ≤ fuel →
      ∀ (acc : List String × List String),
        build_classpath_walk cfg store libExists start_version fuel id acc =
          .ok (acc.1 ++ (firstWinsP (chainLibEntries cfg libExists chain) acc.2).1,
            some (pathJoin (pathJoin cfg.versions_dir (chainLastId chain))
              (chainLastId chain ++ ".jar"))) := by
  intro chain id hchain
  induction hchain with
  | base id vj hstore hinherits =>
    intro fuel hfuel acc
    cases fuel with
    | zero => exact absurd hfuel (by simp)
    | succ f =>
      simp only [build_classpath_walk, hstore, hinherits,
        foldl_classpathStep cfg libExists]
      simp [chainLibEntries, chainLastId]
  | step id vj parent rest hstore hinherits hrest ih =>
    intro fuel hfuel acc
    cases fuel with
    | zero => exact absurd hfuel (by simp)
    | succ f =>
      have hflen : rest.length ≤ f := by
        simpa using Nat.succ_le_succ_iff.mp (by simpa using hfuel)
      simp only [build_classpath_walk, hstore, hinherits,
        foldl_classpathStep cfg libExists]
      rw [ih f hflen]
      rw [chainLastId_cons _ rest hrest.ne_nil]
      have happ : chainLibEntries cfg libExists ((id, vj) :: rest) =
          vj.libraries.filterMap (libEntry cfg libExists) ++
            chainLibEntries cfg libExists rest := by
        simp [chainLibEntries]
      rw [happ, firstWinsP_append]
      simp [List.append_assoc]

/-- C1: over any inheritance chain on disk, build_classpath walks the
descriptors child to parent starting at the given version, collects each
descriptor's allowed and locally-resolvable libraries in source order,
keeps a path only when its group:artifact key was not seen before (first
occurrence wins), and appends exactly one base game JAR path —
versions/<base>/<base>.jar of the chain's final descriptor, the first with
no inheritsFrom — as the last entry of the ":"-joined classpath string. -/
theorem c1_build_classpath_characterized :
    ∀ (cfg : LauncherConfig) (store : String → Option VersionJson)
      (libExists : String → Bool) (start_version : String)
      (chain : List (String × VersionJson)) (fuel : Nat),
      ChainOnDisk store start_version chain →
      chain.length ≤ fuel →
      build_classpath cfg store libExists fuel start_version =
        .ok (String.intercalate ":"
          ((firstWinsP (chainLibEntries cfg libExists chain) []).1 ++
           [pathJoin (pathJoin cfg.versions_dir (chainLastId chain))
             (chainLastId chain ++ ".jar")])) := by
  intro cfg store libExists start_version chain fuel hchain hfuel
  unfold build_classpath
  rw [build_classpath_walk_on_chain cfg store libExists start_version chain
    start_version hchain fuel hfuel ([], [])]
  simp

/-- The allowed scenario library: explicit artifact info, no rules. -/
def scenarioAllowedLib : Library :=
  { name := "org.lwjgl:lwjgl:3.3.1"
    downloads := some
      { artifact := some
          { url := "https://libraries.minecraft.net/org/lwjgl/lwjgl/3.3.1/lwjgl-3.3.1.jar"
            path := "org/lwjgl/lwjgl/3.3.1/lwjgl-3.3.1.jar" }
        classifiers := none }
    natives := none, rules := none, extract := none }

/-- The denied scenario library: explicit artifact info, allowed only on
another OS. -/
def scenarioDeniedLib : Library :=
  { name := "ca.weblite:java-objc-bridge:1.1"
    downloads := some
      { artifact := some
          { url := "https://libraries.minecraft.net/ca/weblite/java-objc-bridge/1.1/java-objc-bridge-1.1.jar"
            path := "ca/weblite/java-objc-bridge/1.1/java-objc-bridge-1.1.jar" }
        classifiers := none }
    natives := none
    rules := some [{ action := "allow", os := some { name := some "osx" } }]
    extract := none }

/-- The scenario descriptor for "1.19.4": no parent, one allowed and one
denied library (the client-download URL of the wire format does not enter
the classpath computation). -/
def scenarioVersionJson : VersionJson :=
  { inherits_from := none, java_version := some 17
    libraries := [scenarioAllowedLib, scenarioDeniedLib]
    main_class := some "net.minecraft.client.main.Main"
    asset_index := some "3" }

/-- The scenario store: exactly one descriptor on disk. -/
def scenarioStore : String → Option VersionJson :=
  fun id => if id = "1.19.4" then some scenarioVersionJson else none

/-- Witness for C1: the end-to-end scenario — the classpath is exactly the
allowed library's path followed by the base JAR. -/
theorem c1_witness :
    build_classpath (LauncherConfig.new "/home/user") scenarioStore
      (fun _ => false) 1 "1.19.4" =
      .ok "/home/user/.minecraft/libraries/org/lwjgl/lwjgl/3.3.1/lwjgl-3.3.1.jar:/home/user/.minecraft/versions/1.19.4/1.19.4.jar" := by
  have h := c1_build_classpath_characterized (LauncherConfig.new "/home/user")
    scenarioStore (fun _ => false) "1.19.4" [("1.19.4", scenarioVersionJson)] 1
    (ChainOnDisk.base "1.19.4" scenarioVersionJson (by simp [scenarioStore]) rfl)
    (by decide)
  rw [h]
  rfl

end RCraft
